import Mathlib

/-!
Shallow embedding of the `sqln` package (src/database.go): a statement-caching
façade over a SQL connection with a transaction helper.

External collaborators (the sqlx driver: prepare, exec, begin/commit/rollback,
statement close) are modelled as oracles passed in as parameters; their calls
are recorded in explicit traces so that claims about which driver operations
happen (and against which target) can be stated.  Reference-typed Go fields
(the `*sqlx.DB` connection, the `*sync.Mutex`, the `map[string]*sqlx.NamedStmt`)
are modelled as reference identities (`Nat`); the mutable content of the
statement map lives in a `World` indexed by the map reference.
-/

set_option autoImplicit false

namespace Sqln

/-- Go error values: `errors.New msg` and `errors.Wrapf cause msg` (pkg/errors). -/
inductive Err where
  | new (msg : String) : Err
  | wrap (cause : Err) (msg : String) : Err
deriving DecidableEq, Repr

/-- The rendered message of an error; `errors.Wrapf` renders as `msg ++ ": " ++ cause`. -/
def Err.message : Err → String
  | Err.new m => m
  | Err.wrap c m => m ++ ": " ++ c.message

/-- Whether an error is a wrapped (annotated) error rather than a bare one. -/
def Err.isWrapped : Err → Bool
  | Err.new _ => false
  | Err.wrap _ _ => true

/-- Lifting of `errors.Wrapf` to a possibly-nil error: wrapping `nil` yields `nil`
(this is how line 144 of database.go returns success when `tx.Commit()` is nil). -/
def wrapf : Option Err → String → Option Err
  | none, _ => none
  | some e, m => some (Err.wrap e m)

/-- A prepared named statement (`*sqlx.NamedStmt`): an identity freshly allocated
by the driver on each prepare call, remembering the query it was prepared from. -/
structure NamedStmt where
  id : Nat
  query : String
deriving DecidableEq, Repr

/-- The target a driver `prepare` call is issued against: the base connection
(`d.X.PrepareNamed`) or an open transaction.  The source only ever prepares
against the base connection; the transaction alternative exists so that the
trace vocabulary can express the distinction. -/
inductive PrepTarget where
  | conn (x : Nat) : PrepTarget
  | txRef (t : Nat) : PrepTarget
deriving DecidableEq, Repr

/-- The `Database` struct (database.go lines 41-50).  `X` is the connection
reference, `tx` the optional transaction reference, `txLevel` the nesting
depth, `stmtsMtx` the identity of the shared mutex, and `stmts` the identity
of the shared statement map. -/
structure Database where
  X : Nat
  tx : Option Nat
  txLevel : Nat
  stmtsMtx : Nat
  stmts : Nat
deriving DecidableEq, Repr

/-- Model of `New` (database.go lines 17-23): wraps a connection with no transaction,
depth 0, and (freshly allocated) mutex and statement-map references, the
allocator choosing the reference identities. -/
def New (x mtx stmtsRef : Nat) : Database :=
  { X := x, tx := none, txLevel := 0, stmtsMtx := mtx, stmts := stmtsRef }

/-- Mutable world: the content of every statement map by reference identity,
the driver's fresh-statement counter, and the log of driver prepare calls. -/
structure World where
  caches : Nat → List (String × NamedStmt)
  nextId : Nat
  prepareLog : List (PrepTarget × String)

/-- Go map read `m[query]`: first binding for the key, if any. -/
def lookup (q : String) : List (String × NamedStmt) → Option NamedStmt
  | [] => none
  | (k, s) :: rest => if k = q then some s else lookup q rest

/-- The driver's `PrepareNamed`, issued against connection `x`: the oracle
`env` decides failure; success returns a fresh statement identity.  Every call
is recorded in the prepare log. -/
def prepareNamed (env : String → Option Err) (x : Nat) (w : World) (q : String) :
    Except Err NamedStmt × World :=
  let w' := { w with prepareLog := w.prepareLog ++ [(PrepTarget.conn x, q)] }
  match env q with
  | some e => (Except.error e, w')
  | none => (Except.ok { id := w.nextId, query := q }, { w' with nextId := w.nextId + 1 })

/-- Model of `Stmt` (database.go lines 148-165): under the cache lock, return the cached
statement for `query` if present; otherwise prepare it against the base
connection, and on success insert it into the shared map. -/
def Database.Stmt (env : String → Option Err) (d : Database) (w : World) (q : String) :
    Except Err NamedStmt × World :=
  match lookup q (w.caches d.stmts) with
  | some s => (Except.ok s, w)
  | none =>
    match prepareNamed env d.X w q with
    | (Except.error e, w') => (Except.error e, w')
    | (Except.ok s, w') =>
      (Except.ok s,
        { w' with caches := fun r => if r = d.stmts then w'.caches r ++ [(q, s)] else w'.caches r })

/-- The target a driver execution is issued through: the prepared statement
directly (`s.ExecContext` etc., against the base connection), or the statement
re-bound to an open transaction (`d.tx.NamedStmt(s)`). -/
inductive ExecTarget where
  | stmt (s : NamedStmt) : ExecTarget
  | txStmt (t : Nat) (s : NamedStmt) : ExecTarget
deriving DecidableEq, Repr

/-- Caller-supplied named parameters: Go `interface{}` values, where `empty`
stands for `struct{}{}` and `value v` for an arbitrary non-nil argument.
The Go `nil` argument is `none` at `Option Params`. -/
inductive Params where
  | empty : Params
  | value (v : Nat) : Params
deriving DecidableEq, Repr

/-- Nil-params normalization, `params = struct\x7b\x7d{}` when nil (database.go lines 59-61). -/
def normParams : Option Params → Params
  | none => Params.empty
  | some p => p

/-- The execution target picked by Exec/Get/Select once the statement is
resolved: through the transaction when one is open, else the statement itself. -/
def execTargetOf (d : Database) (s : NamedStmt) : ExecTarget :=
  match d.tx with
  | some t => ExecTarget.txStmt t s
  | none => ExecTarget.stmt s

/-- Outcome of `Exec`: the returned `(sql.Result, error)` pair, plus a trace of
the driver execution that happened (if any) and the params actually sent. -/
structure ExecOutcome where
  result : Except Err Nat
  target : Option ExecTarget
  sentParams : Option Params
deriving Repr

/-- Outcome of `Get`/`Select`: the returned error, plus the same trace. -/
structure QueryOutcome where
  result : Option Err
  target : Option ExecTarget
  sentParams : Option Params
deriving Repr

/-- Model of `Exec` (database.go lines 53-68): resolve the statement through the cache,
normalize nil params, then execute through the transaction if one is open,
else directly through the prepared statement.  `run` is the driver oracle. -/
def Database.Exec (env : String → Option Err) (run : ExecTarget → Params → Except Err Nat)
    (d : Database) (w : World) (q : String) (params : Option Params) :
    ExecOutcome × World :=
  match d.Stmt env w q with
  | (Except.error e, w') => ({ result := Except.error e, target := none, sentParams := none }, w')
  | (Except.ok s, w') =>
    let p := normParams params
    let tgt := execTargetOf d s
    ({ result := run tgt p, target := some tgt, sentParams := some p }, w')

/-- Model of `Get` (database.go lines 71-90): same resolution and target selection as
`Exec`; the destination is an uninterpreted value (`dest : Nat`) handed to the driver. -/
def Database.Get (env : String → Option Err) (run : ExecTarget → Nat → Params → Option Err)
    (d : Database) (w : World) (q : String) (dest : Nat) (params : Option Params) :
    QueryOutcome × World :=
  match d.Stmt env w q with
  | (Except.error e, w') => ({ result := some e, target := none, sentParams := none }, w')
  | (Except.ok s, w') =>
    let p := normParams params
    let tgt := execTargetOf d s
    ({ result := run tgt dest p, target := some tgt, sentParams := some p }, w')

/-- Model of `Select` (database.go lines 93-112): identical control flow to `Get` with
the driver's select-many primitive. -/
def Database.Select (env : String → Option Err) (run : ExecTarget → Nat → Params → Option Err)
    (d : Database) (w : World) (q : String) (dest : Nat) (params : Option Params) :
    QueryOutcome × World :=
  match d.Stmt env w q with
  | (Except.error e, w') => ({ result := some e, target := none, sentParams := none }, w')
  | (Except.ok s, w') =>
    let p := normParams params
    let tgt := execTargetOf d s
    ({ result := run tgt dest p, target := some tgt, sentParams := some p }, w')

/-- The error message of `errors.New` at database.go line 122. -/
def nestedTxMsg : String := "nested tx not currently supported"

/-- The `"tx level %v"` annotation text used by `errors.Wrapf` in `Transact`. -/
def txLevelMsg (lvl : Nat) : String := "tx level " ++ toString lvl

def rollbackSuffix : String := ": rollback"

def commitSuffix : String := ": commit"

/-- The transaction-scoped child handle built at database.go lines 131-136:
same connection, the new transaction, depth parent + 1, same mutex and same
statement-map references. -/
def txChild (d : Database) (txId : Nat) : Database :=
  { X := d.X, tx := some txId, txLevel := d.txLevel + 1,
    stmtsMtx := d.stmtsMtx, stmts := d.stmts }

/-- Outcome of `Transact`: the returned error plus a trace of which driver
lifecycle calls happened, the child handle passed to the callback (if it was
invoked), and the caller's handle as `Transact` leaves it. -/
structure TxOutcome where
  result : Option Err
  beginCalled : Bool
  callbackInvoked : Bool
  commitCalled : Bool
  rollbackCalled : Bool
  child : Option Database
  parentAfter : Database
deriving Repr

/-- Model of `Transact` (database.go lines 119-145).  The driver outcomes are oracles:
`beginRes` is what `d.X.BeginTxx` returns, `commitRes`/`rollbackRes` what
`tx.Commit()`/`tx.Rollback()` would return, and `f` gives the callback's
returned error as a function of the handle it is invoked with.
Control flow of the source: reject when a transaction is already open; return
a begin failure as-is; otherwise run the callback on the child handle; on
callback error roll back, returning the wrapped rollback error if rollback
fails and the wrapped callback error otherwise; on callback success commit and
return the commit outcome wrapped (`wrapf` of `nil` being `nil`). -/
def Database.Transact (d : Database) (beginRes : Except Err Nat)
    (f : Database → Option Err) (commitRes rollbackRes : Option Err) : TxOutcome :=
  if d.tx.isSome then
    { result := some (Err.new nestedTxMsg), beginCalled := false, callbackInvoked := false,
      commitCalled := false, rollbackCalled := false, child := none, parentAfter := d }
  else
    match beginRes with
    | Except.error e =>
      { result := some e, beginCalled := true, callbackInvoked := false,
        commitCalled := false, rollbackCalled := false, child := none, parentAfter := d }
    | Except.ok txId =>
      let txLvl := d.txLevel + 1
      let c := txChild d txId
      match f c with
      | some ferr =>
        match rollbackRes with
        | some rerr =>
          { result := some (Err.wrap rerr (txLevelMsg txLvl ++ rollbackSuffix)),
            beginCalled := true, callbackInvoked := true, commitCalled := false,
            rollbackCalled := true, child := some c, parentAfter := d }
        | none =>
          { result := some (Err.wrap ferr (txLevelMsg txLvl)),
            beginCalled := true, callbackInvoked := true, commitCalled := false,
            rollbackCalled := true, child := some c, parentAfter := d }
      | none =>
        { result := wrapf commitRes (txLevelMsg txLvl ++ commitSuffix),
          beginCalled := true, callbackInvoked := true, commitCalled := true,
          rollbackCalled := false, child := some c, parentAfter := d }

/-- The loop body of `Close` (database.go lines 171-175): close the cached
statements in iteration order, returning the first failure — the loop `return`s
there, so later entries are not visited.  Also returns the list of statements
whose `Close` was invoked, in order. -/
def closeStmts (closeErr : NamedStmt → Option Err) :
    List (String × NamedStmt) → Option Err × List NamedStmt
  | [] => (none, [])
  | (_, s) :: rest =>
    match closeErr s with
    | some e => (some e, [s])
    | none =>
      let r := closeStmts closeErr rest
      (r.1, s :: r.2)

/-- Outcome of `Close`: the returned error, the statements released (in order),
and whether the base connection was closed (the source never closes it). -/
structure CloseOutcome where
  result : Option Err
  closedStmts : List NamedStmt
  connClosed : Bool
deriving DecidableEq, Repr

/-- Model of `Close` (database.go lines 168-177): under the lock, close every cached
statement until the first failure; the base connection is left untouched. -/
def Database.Close (closeErr : NamedStmt → Option Err) (d : Database) (w : World) :
    CloseOutcome :=
  let r := closeStmts closeErr (w.caches d.stmts)
  { result := r.1, closedStmts := r.2, connClosed := false }

/-- The handles reachable through the public API: a root handle built by `New`,
and the transaction-scoped child `Transact` constructs — only ever from a
handle whose transaction reference is unset, since the precondition at
database.go lines 120-123 rejects every other caller before construction. -/
inductive Reachable : Database → Prop where
  | root (x mtx stmtsRef : Nat) : Reachable (New x mtx stmtsRef)
  | txScoped (d : Database) (txId : Nat) :
      Reachable d → d.tx = none → Reachable (txChild d txId)

/-! Sample data used by witnesses and counterexamples. -/

def qA : String := "q1"

def qB : String := "q2"

def stmtA : NamedStmt := { id := 0, query := qA }

def stmtB : NamedStmt := { id := 1, query := qB }

def envOk : String → Option Err := fun _ => none

def w0 : World := { caches := fun _ => [], nextId := 0, prepareLog := [] }

def wCached : World := { caches := fun _ => [(qA, stmtA)], nextId := 1, prepareLog := [] }

def boomMsg : String := "boom"

def errBoom : Err := Err.new boomMsg

def errFoo : Err := Err.new qB

/-- How many times the driver's prepare was invoked for query `q`, read off
the prepare log. -/
def countPrepare (q : String) (log : List (PrepTarget × String)) : Nat :=
  (log.filter fun e => e.2 == q).length

/-- Resolve query `q` through the cache `k` times in a row, threading the
world (the results are discarded; only driver effects matter). -/
def resolveRep (env : String → Option Err) (d : Database) (q : String) :
    Nat → World → World
  | 0, w => w
  | k + 1, w => resolveRep env d q k (d.Stmt env w q).2

def cexCloseWorld : World :=
  { caches := fun _ => [(qA, stmtA), (qB, stmtB)], nextId := 2, prepareLog := [] }

def closeFail : NamedStmt → Option Err := fun _ => some errBoom

def closeOk : NamedStmt → Option Err := fun _ => none

def envFail : String → Option Err := fun _ => some errBoom

/-! Helper lemmas shared by several claims. -/

theorem lookup_append_self (q : String) (s : NamedStmt) (l : List (String × NamedStmt))
    (h : lookup q l = none) : lookup q (l ++ [(q, s)]) = some s := by
  induction l with
  | nil => simp [lookup]
  | cons p rest ih =>
    obtain ⟨k, s'⟩ := p
    by_cases hk : k = q
    · simp [lookup, hk] at h
    · simp [lookup, hk] at h ⊢
      exact ih h

theorem Stmt_cached (env : String → Option Err) (d : Database) (w : World) (q : String)
    (s : NamedStmt) (h : lookup q (w.caches d.stmts) = some s) :
    d.Stmt env w q = (Except.ok s, w) := by
  unfold Database.Stmt
  rw [h]

theorem Stmt_ok_cached (env : String → Option Err) (d : Database) (w w' : World) (q : String)
    (s : NamedStmt) (h : d.Stmt env w q = (Except.ok s, w')) :
    lookup q (w'.caches d.stmts) = some s := by
  unfold Database.Stmt at h
  cases hl : lookup q (w.caches d.stmts) with
  | some s0 =>
    rw [hl] at h
    obtain ⟨h1, h2⟩ := Prod.mk.injEq .. ▸ h
    cases h1
    cases h2
    simpa using hl
  | none =>
    rw [hl] at h
    cases henv : env q with
    | some e => simp [prepareNamed, henv] at h
    | none =>
      simp only [prepareNamed, henv] at h
      obtain ⟨h1, h2⟩ := Prod.mk.injEq .. ▸ h
      cases h1
      cases h2
      simpa using lookup_append_self q _ _ hl

theorem resolveRep_cached (env : String → Option Err) (d : Database) (q : String)
    (s : NamedStmt) (w : World) (h : lookup q (w.caches d.stmts) = some s) :
    ∀ k, resolveRep env d q k w = w := by
  intro k
  induction k with
  | zero => rfl
  | succ n ih =>
    have hs := Stmt_cached env d w q s h
    simp only [resolveRep, hs]
    exact ih

/-! Claim theorems. -/

/-- C3: resolving a query already in the cache returns the cached statement
without touching the driver or the world; resolving an absent query (with a
driver that can prepare it) prepares it exactly once, and every later
resolution returns the very same statement identity with the world — in
particular the prepare log — unchanged, however many times it is repeated. -/
theorem Stmt_cache_identity :
    (∀ (env : String → Option Err) (d : Database) (w : World) (q : String) (s : NamedStmt),
      lookup q (w.caches d.stmts) = some s → d.Stmt env w q = (Except.ok s, w)) ∧
    (∀ (env : String → Option Err) (d : Database) (w : World) (q : String),
      lookup q (w.caches d.stmts) = none → env q = none →
      ∃ s w', d.Stmt env w q = (Except.ok s, w') ∧
        d.Stmt env w' q = (Except.ok s, w') ∧
        countPrepare q w'.prepareLog = countPrepare q w.prepareLog + 1 ∧
        ∀ k, resolveRep env d q k w' = w') := by
  constructor
  · exact Stmt_cached
  · intro env d w q hl henv
    refine ⟨{ id := w.nextId, query := q }, (d.Stmt env w q).2, ?_⟩
    have hs : d.Stmt env w q = (Except.ok { id := w.nextId, query := q }, (d.Stmt env w q).2) := by
      unfold Database.Stmt prepareNamed
      rw [hl, henv]
    have hc := Stmt_ok_cached env d w (d.Stmt env w q).2 q _ hs
    refine ⟨hs, Stmt_cached env d _ q _ hc, ?_, resolveRep_cached env d q _ _ hc⟩
    have hlog : (d.Stmt env w q).2.prepareLog =
        w.prepareLog ++ [(PrepTarget.conn d.X, q)] := by
      unfold Database.Stmt prepareNamed
      rw [hl, henv]
    rw [hlog]
    simp [countPrepare]

theorem Stmt_cache_identity_witness :
    lookup qA (w0.caches (New 0 1 2).stmts) = none ∧ envOk qA = none ∧
    (∃ s w', (New 0 1 2).Stmt envOk w0 qA = (Except.ok s, w') ∧
      (New 0 1 2).Stmt envOk w' qA = (Except.ok s, w') ∧
      countPrepare qA w'.prepareLog = countPrepare qA w0.prepareLog + 1 ∧
      ∀ k, resolveRep envOk (New 0 1 2) qA k w' = w') :=
  ⟨rfl, rfl, Stmt_cache_identity.2 envOk (New 0 1 2) w0 qA rfl rfl⟩

/-- C6: for a query absent from the cache, `Stmt` issues exactly one driver
prepare, always against the base connection (never a transaction); when the
driver fails, the error is returned and the cache mapping is left unchanged
(the resulting world keeps `w.caches`, only the log grows); when it succeeds,
the fresh statement is inserted under the query and returned. -/
theorem Stmt_miss_prepares_on_conn (env : String → Option Err) (d : Database) (w : World)
    (q : String) (h : lookup q (w.caches d.stmts) = none) :
    ((d.Stmt env w q).2.prepareLog = w.prepareLog ++ [(PrepTarget.conn d.X, q)]) ∧
    (∀ e, env q = some e →
      d.Stmt env w q =
        (Except.error e,
          { w with prepareLog := w.prepareLog ++ [(PrepTarget.conn d.X, q)] })) ∧
    (env q = none →
      ∃ s, d.Stmt env w q =
        (Except.ok s,
          { caches := fun r => if r = d.stmts then w.caches r ++ [(q, s)] else w.caches r,
            nextId := w.nextId + 1,
            prepareLog := w.prepareLog ++ [(PrepTarget.conn d.X, q)] }) ∧
        lookup q ((d.Stmt env w q).2.caches d.stmts) = some s) := by
  refine ⟨?_, ?_, ?_⟩
  · cases henv : env q with
    | some e =>
      unfold Database.Stmt prepareNamed
      rw [h, henv]
    | none =>
      unfold Database.Stmt prepareNamed
      rw [h, henv]
  · intro e he
    unfold Database.Stmt prepareNamed
    rw [h, he]
  · intro henv
    refine ⟨{ id := w.nextId, query := q }, ?_, ?_⟩
    · unfold Database.Stmt prepareNamed
      rw [h, henv]
    · have hs : d.Stmt env w q =
          (Except.ok { id := w.nextId, query := q }, (d.Stmt env w q).2) := by
        unfold Database.Stmt prepareNamed
        rw [h, henv]
      exact Stmt_ok_cached env d w _ q _ hs

theorem Stmt_miss_prepares_on_conn_witness :
    lookup qA (w0.caches (New 0 1 2).stmts) = none ∧
    ((((New 0 1 2).Stmt envFail w0 qA).2.prepareLog =
        w0.prepareLog ++ [(PrepTarget.conn (New 0 1 2).X, qA)]) ∧
      (∀ e, envFail qA = some e →
        (New 0 1 2).Stmt envFail w0 qA =
          (Except.error e,
            { w0 with prepareLog := w0.prepareLog ++ [(PrepTarget.conn (New 0 1 2).X, qA)] })) ∧
      (envFail qA = none →
        ∃ s, (New 0 1 2).Stmt envFail w0 qA =
          (Except.ok s,
            { caches := fun r => if r = (New 0 1 2).stmts
                then w0.caches r ++ [(qA, s)] else w0.caches r,
              nextId := w0.nextId + 1,
              prepareLog := w0.prepareLog ++ [(PrepTarget.conn (New 0 1 2).X, qA)] }) ∧
          lookup qA (((New 0 1 2).Stmt envFail w0 qA).2.caches (New 0 1 2).stmts) = some s)) :=
  ⟨rfl, Stmt_miss_prepares_on_conn envFail (New 0 1 2) w0 qA rfl⟩

/-- C5: once statement resolution succeeds, `Exec`, `Get` and `Select` all
execute through the statement re-bound to the open transaction when the
handle holds one, and directly through the prepared statement otherwise, with
nil params normalized to the empty set. -/
theorem ExecGetSelect_target_selection (env : String → Option Err)
    (runE : ExecTarget → Params → Except Err Nat)
    (runQ runS : ExecTarget → Nat → Params → Option Err)
    (d : Database) (w w' : World) (q : String) (params : Option Params) (dest : Nat)
    (s : NamedStmt) (h : d.Stmt env w q = (Except.ok s, w')) :
    d.Exec env runE w q params =
      ({ result := runE (execTargetOf d s) (normParams params),
         target := some (execTargetOf d s), sentParams := some (normParams params) }, w') ∧
    d.Get env runQ w q dest params =
      ({ result := runQ (execTargetOf d s) dest (normParams params),
         target := some (execTargetOf d s), sentParams := some (normParams params) }, w') ∧
    d.Select env runS w q dest params =
      ({ result := runS (execTargetOf d s) dest (normParams params),
         target := some (execTargetOf d s), sentParams := some (normParams params) }, w') ∧
    (∀ t, d.tx = some t → execTargetOf d s = ExecTarget.txStmt t s) ∧
    (d.tx = none → execTargetOf d s = ExecTarget.stmt s) := by
  refine ⟨?_, ?_, ?_, ?_, ?_⟩
  · unfold Database.Exec
    rw [h]
  · unfold Database.Get
    rw [h]
  · unfold Database.Select
    rw [h]
  · intro t ht
    simp [execTargetOf, ht]
  · intro ht
    simp [execTargetOf, ht]

theorem ExecGetSelect_target_selection_witness :
    (txChild (New 0 1 2) 7).Stmt envOk wCached qA = (Except.ok stmtA, wCached) ∧
    ((txChild (New 0 1 2) 7).Exec envOk (fun _ _ => Except.ok 0) wCached qA none =
      ({ result := (fun (_ : ExecTarget) (_ : Params) => Except.ok 0)
            (execTargetOf (txChild (New 0 1 2) 7) stmtA) (normParams none),
         target := some (execTargetOf (txChild (New 0 1 2) 7) stmtA),
         sentParams := some (normParams none) }, wCached) ∧
    (txChild (New 0 1 2) 7).Get envOk (fun _ _ _ => none) wCached qA 3 none =
      ({ result := (fun (_ : ExecTarget) (_ : Nat) (_ : Params) => (none : Option Err))
            (execTargetOf (txChild (New 0 1 2) 7) stmtA) 3 (normParams none),
         target := some (execTargetOf (txChild (New 0 1 2) 7) stmtA),
         sentParams := some (normParams none) }, wCached) ∧
    (txChild (New 0 1 2) 7).Select envOk (fun _ _ _ => none) wCached qA 3 none =
      ({ result := (fun (_ : ExecTarget) (_ : Nat) (_ : Params) => (none : Option Err))
            (execTargetOf (txChild (New 0 1 2) 7) stmtA) 3 (normParams none),
         target := some (execTargetOf (txChild (New 0 1 2) 7) stmtA),
         sentParams := some (normParams none) }, wCached) ∧
    (∀ t, (txChild (New 0 1 2) 7).tx = some t →
      execTargetOf (txChild (New 0 1 2) 7) stmtA = ExecTarget.txStmt t stmtA) ∧
    ((txChild (New 0 1 2) 7).tx = none →
      execTargetOf (txChild (New 0 1 2) 7) stmtA = ExecTarget.stmt stmtA)) :=
  ⟨rfl, ExecGetSelect_target_selection envOk (fun _ _ => Except.ok 0) (fun _ _ _ => none)
    (fun _ _ _ => none) (txChild (New 0 1 2) 7) wCached wCached qA none 3 stmtA rfl⟩

/-- C4: when `Transact` passes its precondition and the driver begins a
transaction, the callback receives the child handle: same connection, the new
transaction, depth parent + 1, and the same mutex and statement-map
references — so a query resolved before the transaction began resolves to the
same cache entry through the child with the world (hence the prepare log)
unchanged. -/
theorem Transact_child_shares_cache (env : String → Option Err) (d : Database) (txId : Nat)
    (f : Database → Option Err) (commitRes rollbackRes : Option Err) (hTx : d.tx = none) :
    (d.Transact (Except.ok txId) f commitRes rollbackRes).child = some (txChild d txId) ∧
    (txChild d txId).X = d.X ∧
    (txChild d txId).tx = some txId ∧
    (txChild d txId).txLevel = d.txLevel + 1 ∧
    (txChild d txId).stmtsMtx = d.stmtsMtx ∧
    (txChild d txId).stmts = d.stmts ∧
    (∀ (w w' : World) (q : String) (s : NamedStmt),
      d.Stmt env w q = (Except.ok s, w') →
      (txChild d txId).Stmt env w' q = (Except.ok s, w')) := by
  refine ⟨?_, rfl, rfl, rfl, rfl, rfl, ?_⟩
  · unfold Database.Transact
    cases hf : f (txChild d txId) with
    | some ferr => cases rollbackRes <;> simp [hTx, hf]
    | none => simp [hTx, hf]
  · intro w w' q s h
    exact Stmt_cached env (txChild d txId) w' q s (Stmt_ok_cached env d w w' q s h)

theorem Transact_child_shares_cache_witness :
    (New 0 1 2).tx = none ∧
    (((New 0 1 2).Transact (Except.ok 7) (fun _ => none) none none).child =
        some (txChild (New 0 1 2) 7) ∧
      (txChild (New 0 1 2) 7).X = (New 0 1 2).X ∧
      (txChild (New 0 1 2) 7).tx = some 7 ∧
      (txChild (New 0 1 2) 7).txLevel = (New 0 1 2).txLevel + 1 ∧
      (txChild (New 0 1 2) 7).stmtsMtx = (New 0 1 2).stmtsMtx ∧
      (txChild (New 0 1 2) 7).stmts = (New 0 1 2).stmts ∧
      (∀ (w w' : World) (q : String) (s : NamedStmt),
        (New 0 1 2).Stmt envOk w q = (Except.ok s, w') →
        (txChild (New 0 1 2) 7).Stmt envOk w' q = (Except.ok s, w'))) :=
  ⟨rfl, Transact_child_shares_cache envOk (New 0 1 2) 7 (fun _ => none) none none rfl⟩

/-- C2: a handle that already holds an open transaction is rejected by
`Transact` with the nested-transactions-unsupported error: no transaction is
begun against the connection, the callback is never invoked, and no child
handle is constructed. -/
theorem Transact_rejects_nested (d : Database) (t : Nat) (beginRes : Except Err Nat)
    (f : Database → Option Err) (commitRes rollbackRes : Option Err)
    (h : d.tx = some t) :
    (d.Transact beginRes f commitRes rollbackRes).result = some (Err.new nestedTxMsg) ∧
    (d.Transact beginRes f commitRes rollbackRes).beginCalled = false ∧
    (d.Transact beginRes f commitRes rollbackRes).callbackInvoked = false ∧
    (d.Transact beginRes f commitRes rollbackRes).child = none := by
  simp [Database.Transact, h]

theorem Transact_rejects_nested_witness :
    (txChild (New 0 1 2) 7).tx = some 7 ∧
    (((txChild (New 0 1 2) 7).Transact (Except.ok 9) (fun _ => none) none none).result =
        some (Err.new nestedTxMsg) ∧
      ((txChild (New 0 1 2) 7).Transact (Except.ok 9) (fun _ => none) none none).beginCalled =
        false ∧
      ((txChild (New 0 1 2) 7).Transact (Except.ok 9) (fun _ => none) none none).callbackInvoked =
        false ∧
      ((txChild (New 0 1 2) 7).Transact (Except.ok 9) (fun _ => none) none none).child = none) :=
  ⟨rfl, Transact_rejects_nested (txChild (New 0 1 2) 7) 7 (Except.ok 9)
    (fun _ => none) none none rfl⟩

/-- C1: when the unit-of-work callback returns an error, `Transact` rolls
back.  If rollback fails, the returned error wraps the rollback failure with
the nesting depth and the rollback marker — regardless of the callback error,
which it therefore cannot be masked by.  If rollback succeeds, the returned
error is the callback error wrapped with the nesting depth. -/
theorem Transact_callbackError_rollback (d : Database) (txId : Nat)
    (f : Database → Option Err) (commitRes : Option Err) (ferr : Err)
    (hTx : d.tx = none) (hf : f (txChild d txId) = some ferr) :
    (∀ rerr : Err,
      (d.Transact (Except.ok txId) f commitRes (some rerr)).result =
        some (Err.wrap rerr (txLevelMsg (d.txLevel + 1) ++ rollbackSuffix)) ∧
      (d.Transact (Except.ok txId) f commitRes (some rerr)).rollbackCalled = true ∧
      (d.Transact (Except.ok txId) f commitRes (some rerr)).commitCalled = false) ∧
    ((d.Transact (Except.ok txId) f commitRes none).result =
        some (Err.wrap ferr (txLevelMsg (d.txLevel + 1))) ∧
      (d.Transact (Except.ok txId) f commitRes none).rollbackCalled = true ∧
      (d.Transact (Except.ok txId) f commitRes none).commitCalled = false) := by
  constructor
  · intro rerr
    simp [Database.Transact, hTx, hf]
  · simp [Database.Transact, hTx, hf]

theorem Transact_callbackError_rollback_witness :
    (New 0 1 2).tx = none ∧ (fun _ => some errFoo) (txChild (New 0 1 2) 7) = some errFoo ∧
    (((New 0 1 2).Transact (Except.ok 7) (fun _ => some errFoo) none (some errBoom)).result =
        some (Err.wrap errBoom (txLevelMsg ((New 0 1 2).txLevel + 1) ++ rollbackSuffix)) ∧
      ((New 0 1 2).Transact (Except.ok 7) (fun _ => some errFoo) none none).result =
        some (Err.wrap errFoo (txLevelMsg ((New 0 1 2).txLevel + 1)))) :=
  ⟨rfl, rfl, by
    have h := Transact_callbackError_rollback (New 0 1 2) 7 (fun _ => some errFoo) none errFoo
      rfl rfl
    exact ⟨(h.1 errBoom).1, h.2.1⟩⟩

/-- C9: `Transact` never mutates the handle it is called on: on every path the
caller's handle afterwards is the very handle it started with — same
transaction reference, nesting depth, and mutex and statement-map references;
only the freshly constructed child carries the new transaction. -/
theorem Transact_frame (d : Database) (beginRes : Except Err Nat)
    (f : Database → Option Err) (commitRes rollbackRes : Option Err) :
    (d.Transact beginRes f commitRes rollbackRes).parentAfter = d ∧
    (d.Transact beginRes f commitRes rollbackRes).parentAfter.tx = d.tx ∧
    (d.Transact beginRes f commitRes rollbackRes).parentAfter.txLevel = d.txLevel ∧
    (d.Transact beginRes f commitRes rollbackRes).parentAfter.stmtsMtx = d.stmtsMtx ∧
    (d.Transact beginRes f commitRes rollbackRes).parentAfter.stmts = d.stmts := by
  have h : (d.Transact beginRes f commitRes rollbackRes).parentAfter = d := by
    unfold Database.Transact
    cases htx : d.tx with
    | some t => simp
    | none =>
      cases beginRes with
      | error e => simp
      | ok txId =>
        cases hf : f (txChild d txId) with
        | some ferr => cases rollbackRes <;> simp [hf]
        | none => simp [hf]
  exact ⟨h, by rw [h], by rw [h], by rw [h], by rw [h]⟩

/-- C7 counterexample: a begin-transaction failure is returned verbatim, not
annotated with the nesting depth — the surfaced error is the bare driver
error, unwrapped, with its original message. -/
theorem Transact_begin_error_unannotated_cex :
    ((New 0 1 2).Transact (Except.error errBoom) (fun _ => none) none none).result =
      some errBoom ∧
    Err.isWrapped errBoom = false ∧
    Err.message errBoom = boomMsg :=
  ⟨rfl, rfl, rfl⟩

/-- C7 (amended): commit and rollback failures are surfaced wrapped with the
nesting depth; a begin-transaction failure is returned verbatim without
annotation.  When the callback succeeds, `Transact` attempts commit, returns
any commit failure wrapped with the nesting depth, and otherwise returns
success. -/
theorem Transact_lifecycle_wrapping (d : Database) (txId : Nat)
    (f : Database → Option Err) (commitRes rollbackRes : Option Err) (e : Err)
    (hTx : d.tx = none) :
    (d.Transact (Except.error e) f commitRes rollbackRes).result = some e ∧
    (f (txChild d txId) = none →
      (d.Transact (Except.ok txId) f commitRes rollbackRes).commitCalled = true ∧
      (∀ ce, commitRes = some ce →
        (d.Transact (Except.ok txId) f commitRes rollbackRes).result =
          some (Err.wrap ce (txLevelMsg (d.txLevel + 1) ++ commitSuffix))) ∧
      (commitRes = none →
        (d.Transact (Except.ok txId) f commitRes rollbackRes).result = none)) ∧
    (∀ ferr rerr, f (txChild d txId) = some ferr → rollbackRes = some rerr →
      (d.Transact (Except.ok txId) f commitRes rollbackRes).result =
        some (Err.wrap rerr (txLevelMsg (d.txLevel + 1) ++ rollbackSuffix))) := by
  refine ⟨?_, ?_, ?_⟩
  · simp [Database.Transact, hTx]
  · intro hf
    refine ⟨?_, ?_, ?_⟩
    · simp [Database.Transact, hTx, hf]
    · intro ce hce
      simp [Database.Transact, hTx, hf, hce, wrapf]
    · intro hce
      simp [Database.Transact, hTx, hf, hce, wrapf]
  · intro ferr rerr hf hrb
    simp [Database.Transact, hTx, hf, hrb]

theorem Transact_lifecycle_wrapping_witness :
    (New 0 1 2).tx = none ∧ (fun _ => (none : Option Err)) (txChild (New 0 1 2) 7) = none ∧
    (((New 0 1 2).Transact (Except.error errBoom) (fun _ => none) (some errFoo) none).result =
        some errBoom ∧
      ((New 0 1 2).Transact (Except.ok 7) (fun _ => none) (some errFoo) none).commitCalled =
        true ∧
      ((New 0 1 2).Transact (Except.ok 7) (fun _ => none) (some errFoo) none).result =
        some (Err.wrap errFoo (txLevelMsg ((New 0 1 2).txLevel + 1) ++ commitSuffix))) :=
  ⟨rfl, rfl, by
    have h := Transact_lifecycle_wrapping (New 0 1 2) 7 (fun _ => none)
      (some errFoo) none errBoom rfl
    exact ⟨h.1, (h.2.1 rfl).1, (h.2.1 rfl).2.1 errFoo rfl⟩⟩

theorem closeStmts_all_ok (closeErr : NamedStmt → Option Err)
    (l : List (String × NamedStmt)) (h : ∀ p ∈ l, closeErr p.2 = none) :
    closeStmts closeErr l = (none, l.map Prod.snd) := by
  induction l with
  | nil => rfl
  | cons p rest ih =>
    obtain ⟨k, s⟩ := p
    have hs : closeErr s = none := h (k, s) (List.mem_cons_self _ _)
    simp [closeStmts, hs, ih fun x hx => h x (List.mem_cons_of_mem _ hx)]

theorem closeStmts_first_fail (closeErr : NamedStmt → Option Err)
    (pre : List (String × NamedStmt)) (k : String) (s : NamedStmt)
    (post : List (String × NamedStmt)) (e : Err)
    (hpre : ∀ p ∈ pre, closeErr p.2 = none) (hs : closeErr s = some e) :
    closeStmts closeErr (pre ++ (k, s) :: post) = (some e, pre.map Prod.snd ++ [s]) := by
  induction pre with
  | nil => simp [closeStmts, hs]
  | cons p rest ih =>
    obtain ⟨k', s'⟩ := p
    have h1 : closeErr s' = none := hpre (k', s') (List.mem_cons_self _ _)
    simp [closeStmts, h1, ih fun x hx => hpre x (List.mem_cons_of_mem _ hx)]

/-- C8 counterexample: with two cached statements whose releases both fail,
`Close` invokes release on the first statement only and returns its failure;
the second cached statement is never attempted — entries are not all attempted
regardless of failures. -/
theorem Close_stops_on_first_failure_cex :
    ((New 0 1 2).Close closeFail cexCloseWorld).closedStmts = [stmtA] ∧
    ((New 0 1 2).Close closeFail cexCloseWorld).result = some errBoom ∧
    stmtB ∈ (cexCloseWorld.caches (New 0 1 2).stmts).map Prod.snd ∧
    stmtB ∉ ((New 0 1 2).Close closeFail cexCloseWorld).closedStmts := by
  refine ⟨rfl, rfl, ?_, ?_⟩
  · simp [cexCloseWorld, New]
  · decide

/-- C8 (amended): `Close` releases the cached statements in iteration order
until the first release failure: on an all-successful run every cached
statement is released exactly once (the release list is exactly the cache's
statement list) and `Close` returns success; when a release fails, `Close`
returns that first failure, having released exactly the preceding statements
and the failing one, and does not attempt the remaining entries.  `Close`
never closes the base connection. -/
theorem Close_first_error (closeErr : NamedStmt → Option Err) (d : Database) (w : World) :
    (d.Close closeErr w).connClosed = false ∧
    ((∀ p ∈ w.caches d.stmts, closeErr p.2 = none) →
      (d.Close closeErr w).result = none ∧
      (d.Close closeErr w).closedStmts = (w.caches d.stmts).map Prod.snd) ∧
    (∀ pre k s post e, w.caches d.stmts = pre ++ (k, s) :: post →
      (∀ p ∈ pre, closeErr p.2 = none) → closeErr s = some e →
      (d.Close closeErr w).result = some e ∧
      (d.Close closeErr w).closedStmts = pre.map Prod.snd ++ [s]) := by
  refine ⟨rfl, ?_, ?_⟩
  · intro h
    simp only [Database.Close]
    rw [closeStmts_all_ok closeErr _ h]
    exact ⟨rfl, rfl⟩
  · intro pre k s post e hcache hpre hs
    simp only [Database.Close]
    rw [hcache, closeStmts_first_fail closeErr pre k s post e hpre hs]
    exact ⟨rfl, rfl⟩

theorem Close_first_error_witness :
    (∀ p ∈ cexCloseWorld.caches (New 0 1 2).stmts, closeOk p.2 = none) ∧
    (((New 0 1 2).Close closeOk cexCloseWorld).result = none ∧
      ((New 0 1 2).Close closeOk cexCloseWorld).closedStmts =
        (cexCloseWorld.caches (New 0 1 2).stmts).map Prod.snd) :=
  ⟨fun _ _ => rfl,
    (Close_first_error closeOk (New 0 1 2) cexCloseWorld).2.1 fun _ _ => rfl⟩

/-- C10: a handle built by `New` has no transaction and depth 0; the child
handle `Transact` constructs carries the new transaction at its parent's depth
plus one; and on every handle reachable through the public API the transaction
reference is set exactly when the depth is at least 1, and the depth never
exceeds 1 — because `Transact` rejects every handle whose transaction is
already set before constructing a child. -/
theorem Reachable_tx_invariant :
    (∀ x mtx stmtsRef, (New x mtx stmtsRef).tx = none ∧ (New x mtx stmtsRef).txLevel = 0) ∧
    (∀ (d : Database) (txId : Nat),
      (txChild d txId).tx = some txId ∧ (txChild d txId).txLevel = d.txLevel + 1) ∧
    (∀ d : Database, Reachable d →
      ((d.tx.isSome = true ↔ 1 ≤ d.txLevel) ∧ d.txLevel ≤ 1)) := by
  refine ⟨fun x mtx stmtsRef => ⟨rfl, rfl⟩, fun d txId => ⟨rfl, rfl⟩, ?_⟩
  intro d h
  induction h with
  | root x mtx stmtsRef => simp [New]
  | txScoped d txId hr htx ih =>
    have h0 : d.txLevel = 0 := by
      rcases ih with ⟨ih1, ih2⟩
      by_contra hne
      have h1 : 1 ≤ d.txLevel := by omega
      have h2 := ih1.mpr h1
      rw [htx] at h2
      simp at h2
    simp [txChild, h0]

theorem Reachable_tx_invariant_witness :
    Reachable (txChild (New 0 1 2) 7) ∧
    (((txChild (New 0 1 2) 7).tx.isSome = true ↔ 1 ≤ (txChild (New 0 1 2) 7).txLevel) ∧
      (txChild (New 0 1 2) 7).txLevel ≤ 1) :=
  ⟨Reachable.txScoped (New 0 1 2) 7 (Reachable.root 0 1 2) rfl,
    Reachable_tx_invariant.2.2 (txChild (New 0 1 2) 7)
      (Reachable.txScoped (New 0 1 2) 7 (Reachable.root 0 1 2) rfl)⟩

end Sqln
